import Mathlib

/-!
Verification of the metrics-reporting service (`src/main.go`): a shallow
embedding of its schema, aggregation engine and query service, together with
theorems settling the specification's claims.

Modelling conventions:
* A raw `deployments` table is a `List Deployment`; timestamps are minutes
  since an arbitrary epoch (`Int`), and `DATE_TRUNC('day', ts)` is flooring to
  a multiple of 1440 minutes.
* SQL numeric expressions are modelled over `ℚ`; `ROUND(x, 2)` is
  `round2` (round half away from zero, as DuckDB does).
* Nullable SQL values are `Option`; the Go `database/sql` scan of a NULL into
  a non-pointer `float64` fails, which `scanTeamRow` models by returning an
  error, exactly as `rows.Scan` does in `GetTeamMetrics`.
* A statement execution that can fail at runtime (I/O, malformed data) is
  modelled by a `Bool` failure flag per statement; the control flow around the
  flags mirrors the Go `for _, query := range queries { if err != nil ... }`
  loops.
-/

deriving instance DecidableEq for Except

/-- One row of the raw `deployments` fact table (struct `Deployment`). -/
structure Deployment where
  id : String
  team : String
  service : String
  timestamp : Int
  duration : Int
  status : String
  environment : String
  commitHash : String
deriving DecidableEq, Repr

/-- Minutes in a day; `DATE_TRUNC('day', ·)` truncates to multiples of this. -/
def dayLen : Int := 1440

/-- `DATE_TRUNC('day', t)`: floor `t` to the start of its calendar day. -/
def truncDay (t : Int) : Int := dayLen * (t.fdiv dayLen)

/-- DuckDB `ROUND` to an integer: round half away from zero. -/
def duckRoundInt (q : ℚ) : ℤ := if 0 ≤ q then ⌊q + 1/2⌋ else -⌊-q + 1/2⌋

/-- DuckDB `ROUND(q, 2)`: round to two decimal places, half away from zero. -/
def round2 (q : ℚ) : ℚ := (duckRoundInt (q * 100) : ℚ) / 100

/-- Rows of `deployments` belonging to team `t` (`GROUP BY team` bucket). -/
def teamDeployments (ds : List Deployment) (t : String) : List Deployment :=
  ds.filter (fun d => d.team == t)

/-- The distinct teams present in the deployments table, in a fixed
deterministic order (SQL `GROUP BY team` leaves the order unspecified). -/
def distinctTeams (ds : List Deployment) : List String :=
  (ds.map (fun d => d.team)).dedup

/-- One result row of the `GetTeamMetrics` SQL query, before Go scans it.
`avgDuration` is `none` when `AVG(CASE WHEN status = 'success' THEN
duration_minutes END)` is NULL, i.e. when the team has no successful
deployment. -/
structure TeamRow where
  team : String
  totalDeployments : ℕ
  successfulDeployments : ℕ
  successRate : ℚ
  avgDuration : Option ℚ
  deploymentsPerDay : ℚ
deriving DecidableEq, Repr

/-- The `GetTeamMetrics` SQL aggregates for a single team. -/
def teamRowOf (ds : List Deployment) (t : String) : TeamRow :=
  let g := teamDeployments ds t
  let ok := g.filter (fun d => d.status == "success")
  { team := t
    totalDeployments := g.length
    successfulDeployments := ok.length
    successRate := round2 ((100 * (ok.length : ℚ)) / (g.length : ℚ))
    avgDuration :=
      if ok.length = 0 then none
      else some (round2 ((ok.map (fun d => (d.duration : ℚ))).sum / ok.length))
    deploymentsPerDay := round2 (g.length / (7 : ℚ)) }

/-- All rows produced by the `GetTeamMetrics` grouping. -/
def teamRowsOf (ds : List Deployment) : List TeamRow :=
  (distinctTeams ds).map (teamRowOf ds)

/-- `ORDER BY success_rate DESC` as a relation on result rows. -/
def teamOrder (a b : TeamRow) : Prop := b.successRate ≤ a.successRate

instance : DecidableRel teamOrder := fun a b =>
  inferInstanceAs (Decidable (b.successRate ≤ a.successRate))

instance : IsTotal TeamRow teamOrder := ⟨fun a b => le_total b.successRate a.successRate⟩

instance : IsTrans TeamRow teamOrder := ⟨fun _ _ _ h1 h2 => le_trans h2 h1⟩

/-- The rows of the `GetTeamMetrics` query in the order the database returns
them (`ORDER BY success_rate DESC`). -/
def sortedTeamRows (ds : List Deployment) : List TeamRow :=
  (teamRowsOf ds).insertionSort teamOrder

/-- The Go struct `TeamMetrics`; `avgDurationMinutes` is a plain `float64`,
so it cannot represent SQL NULL. -/
structure TeamMetrics where
  team : String
  totalDeployments : ℕ
  successfulDeployments : ℕ
  successRate : ℚ
  avgDurationMinutes : ℚ
  deploymentFrequency : ℚ
deriving DecidableEq, Repr

/-- Go `rows.Scan` for one `GetTeamMetrics` row: scanning the NULL
`avg_duration` of a team with no successful deployments into a `float64`
fails (`database/sql` cannot convert NULL to `float64`). -/
def scanTeamRow (r : TeamRow) : Except String TeamMetrics :=
  match r.avgDuration with
  | none => .error "scan failed: converting NULL to float64 is unsupported"
  | some a =>
      .ok { team := r.team
            totalDeployments := r.totalDeployments
            successfulDeployments := r.successfulDeployments
            successRate := r.successRate
            avgDurationMinutes := a
            deploymentFrequency := r.deploymentsPerDay }

/-- The `rows.Next()` loop of `GetTeamMetrics`: scan rows in order, returning
the first scan error, otherwise the accumulated metrics slice. -/
def scanTeamRows : List TeamRow → Except String (List TeamMetrics)
  | [] => .ok []
  | r :: rs =>
    match scanTeamRow r with
    | .error e => .error e
    | .ok tm =>
      match scanTeamRows rs with
      | .error e => .error e
      | .ok tms => .ok (tm :: tms)

/-- `(ms *MetricsService) GetTeamMetrics`: run the grouping query ordered by
success rate descending, then scan each row. -/
def GetTeamMetrics (ds : List Deployment) : Except String (List TeamMetrics) :=
  scanTeamRows (sortedTeamRows ds)

/-- The Go struct `DailyMetrics` (the `date` string is represented by the
truncated day value it prints). -/
structure DailyMetrics where
  date : Int
  team : String
  deployments : ℕ
  successful : ℕ
  avgDuration : ℚ
deriving DecidableEq, Repr

/-- `ORDER BY date DESC, team` on daily rows. -/
def dailyOrder (a b : DailyMetrics) : Prop :=
  b.date < a.date ∨ (a.date = b.date ∧ a.team ≤ b.team)

instance : DecidableRel dailyOrder := fun a b =>
  inferInstanceAs (Decidable (b.date < a.date ∨ (a.date = b.date ∧ a.team ≤ b.team)))

/-- `(ms *MetricsService) GetDailyMetrics`: group deployments of the trailing
`days`-day window (optionally filtered to one team) by day and team. `now` is
the wall clock at query time; `CURRENT_DATE` is `truncDay now`. An empty
`team` string means no team filter (the Go code binds NULL). The scan never
sees a NULL (every selected column is non-nullable over a non-empty group),
so the result is always `.ok`. -/
def GetDailyMetrics (ds : List Deployment) (now : Int) (team : String)
    (days : Int) : Except String (List DailyMetrics) :=
  let cutoff := truncDay now - days * dayLen
  let filtered := ds.filter (fun d =>
    (team == "" || d.team == team) && cutoff ≤ d.timestamp)
  let keys := (filtered.map (fun d => (truncDay d.timestamp, d.team))).dedup
  let rows := keys.map (fun k =>
    let g := filtered.filter (fun d =>
      truncDay d.timestamp == k.1 && d.team == k.2)
    { date := k.1
      team := k.2
      deployments := g.length
      successful := (g.filter (fun d => d.status == "success")).length
      avgDuration := round2 ((g.map (fun d => (d.duration : ℚ))).sum / g.length)
      : DailyMetrics })
  .ok (rows.insertionSort dailyOrder)

/-- The boundary layer's parse of the `days` query parameter in the
`getDailyMetrics` HTTP handler: `strconv.Atoi`, falling back to the default
30 only when parsing fails. -/
def parseDays (s : String) : Int := (s.toInt?).getD 30

/-- The `getDailyMetrics` HTTP handler body: parse `days`, then invoke the
query service. -/
def getDailyMetricsHandler (ds : List Deployment) (now : Int)
    (team daysStr : String) : Except String (List DailyMetrics) :=
  GetDailyMetrics ds now team (parseDays daysStr)

/-- One row of the materialized `daily_team_summary` table. -/
structure DailySummaryRow where
  date : Int
  team : String
  totalDeployments : ℕ
  successfulDeployments : ℕ
  avgDurationMinutes : ℚ
deriving DecidableEq, Repr

/-- The `SELECT` that (re)builds `daily_team_summary`: group all deployments
by truncated day and team. -/
def computeDailySummary (ds : List Deployment) : List DailySummaryRow :=
  let keys := (ds.map (fun d => (truncDay d.timestamp, d.team))).dedup
  keys.map (fun k =>
    let g := ds.filter (fun d => truncDay d.timestamp == k.1 && d.team == k.2)
    { date := k.1
      team := k.2
      totalDeployments := g.length
      successfulDeployments := (g.filter (fun d => d.status == "success")).length
      avgDurationMinutes := round2 ((g.map (fun d => (d.duration : ℚ))).sum / g.length) })

/-- The ranking key `COUNT(*) FILTER (WHERE status = 'success') * 100.0 /
COUNT(*)` for a team (unrounded, unlike `GetTeamMetrics`). -/
def rawSuccessRate (ds : List Deployment) (t : String) : ℚ :=
  (100 * (((teamDeployments ds t).filter (fun d => d.status == "success")).length : ℚ)) /
    ((teamDeployments ds t).length : ℚ)

/-- A team's raw deployment count (`COUNT(*)` per `GROUP BY team` bucket). -/
def deployCount (ds : List Deployment) (t : String) : ℕ :=
  (teamDeployments ds t).length

/-- One row of the materialized `team_rankings` table. -/
structure RankRow where
  team : String
  successRank : ℕ
  velocityRank : ℕ
deriving DecidableEq, Repr

/-- The `SELECT` that (re)builds `team_rankings`. `RANK() OVER (ORDER BY key
DESC)` assigns `1 +` the number of rows with a strictly greater key. -/
def computeTeamRankings (ds : List Deployment) : List RankRow :=
  let ts := distinctTeams ds
  ts.map (fun t =>
    { team := t
      successRank :=
        1 + ts.countP (fun u => decide (rawSuccessRate ds t < rawSuccessRate ds u))
      velocityRank :=
        1 + ts.countP (fun u => decide (deployCount ds t < deployCount ds u)) })

/-- Dense ranking by success rate descending, as the spec's glossary defines
it: `1 +` the number of DISTINCT strictly greater key values. Written from
the spec's words only, to compare against `computeTeamRankings`. -/
def specDenseSuccessRank (ds : List Deployment) (t : String) : ℕ :=
  1 + (((distinctTeams ds).map (rawSuccessRate ds)).filter
    (fun r => decide (rawSuccessRate ds t < r))).dedup.length

/-- The two materialized derived tables. -/
structure DerivedState where
  dailyTeamSummary : List DailySummaryRow
  teamRankings : List RankRow
deriving DecidableEq, Repr

/-- `(ms *MetricsService) aggregateMetrics`: execute the two
`CREATE OR REPLACE TABLE` statements in order, returning at the first
failure. `fail1`/`fail2` say whether the respective statement's execution
fails at runtime; each statement that does execute atomically replaces its
single table with a full recompute from `ds`. The returned pair is
(error, database state after the call). -/
def aggregateMetrics (ds : List Deployment) (fail1 fail2 : Bool)
    (st : DerivedState) : Option String × DerivedState :=
  if fail1 then (some "aggregation query failed", st)
  else
    let st1 : DerivedState := { st with dailyTeamSummary := computeDailySummary ds }
    if fail2 then (some "aggregation query failed", st1)
    else (none, { st1 with teamRankings := computeTeamRankings ds })

-- Concrete inputs used by counterexamples and witnesses.

/-- A single failed deployment for team `alpha`. -/
def depFail : Deployment :=
  ⟨"d1", "alpha", "api", 0, 10, "failed", "prod", "c1"⟩

/-- A successful deployment for team `alpha` (duration 10). -/
def depOkA : Deployment :=
  ⟨"d2", "alpha", "api", 0, 10, "success", "prod", "c2"⟩

/-- A successful deployment for team `beta` (duration 8). -/
def depOkB : Deployment :=
  ⟨"d3", "beta", "api", 60, 8, "success", "prod", "c3"⟩

/-- A failed deployment for team `beta` (duration 4). -/
def depFailB : Deployment :=
  ⟨"d4", "beta", "api", 120, 4, "failed", "prod", "c4"⟩

/-- A successful deployment for team `gamma`. -/
def depOkC : Deployment :=
  ⟨"d5", "gamma", "api", 0, 6, "success", "prod", "c5"⟩

/-- A failed deployment for team `gamma`. -/
def depFailC : Deployment :=
  ⟨"d6", "gamma", "api", 0, 6, "failed", "prod", "c6"⟩

/-- A failed deployment for team `alpha` with a large duration (999). -/
def depFail999 : Deployment :=
  ⟨"d7", "alpha", "api", 0, 999, "failed", "prod", "c7"⟩

/-- Ranking counterexample data: `alpha` and `beta` both at 100% success,
`gamma` at 0%. -/
def rankEx : List Deployment := [depOkA, depOkB, depFailC]

/-- The field-wise relation `rows.Scan` preserves between a SQL row and the
scanned `TeamMetrics`. -/
def rowMatches (r : TeamRow) (tm : TeamMetrics) : Prop :=
  tm.team = r.team ∧ tm.totalDeployments = r.totalDeployments ∧
    tm.successfulDeployments = r.successfulDeployments ∧
    tm.successRate = r.successRate

/-- The `TeamMetrics` row `GetTeamMetrics` produces for `alpha` on the
witness data `[depOkA, depOkB, depFailB]`. -/
def tmAlpha : TeamMetrics := ⟨"alpha", 1, 1, 100, 10, 7 / 50⟩

/-- The `TeamMetrics` row `GetTeamMetrics` produces for `beta` on the
witness data `[depOkA, depOkB, depFailB]`. -/
def tmBeta : TeamMetrics := ⟨"beta", 2, 1, 50, 8, 29 / 100⟩

-- Helper lemmas shared by the claim theorems.

/-- If `p` implies `q` and some member of `l` satisfies `q` but not `p`, then
`countP p` is strictly below `countP q`. -/
theorem countP_lt_of_mem {α : Type} {p q : α → Bool}
    (hpq : ∀ a, p a = true → q a = true) {l : List α} {x : α} (hx : x ∈ l)
    (hqx : q x = true) (hpx : p x = false) : l.countP p < l.countP q := by
  induction l with
  | nil => cases hx
  | cons a l ih =>
    rcases List.mem_cons.1 hx with rfl | hx2
    · rw [List.countP_cons, List.countP_cons, hpx, hqx]
      simp only [if_true, if_false, Nat.add_zero, Nat.add_one]
      exact Nat.lt_succ_of_le (List.countP_mono_left fun a _ => hpq a)
    · have hlt := ih hx2
      rw [List.countP_cons, List.countP_cons]
      cases hp : p a
      · cases hq : q a <;> simp <;> omega
      · rw [hpq a hp]; simp; omega

theorem scanTeamRow_ok {r : TeamRow} {tm : TeamMetrics}
    (h : scanTeamRow r = .ok tm) : rowMatches r tm := by
  cases hd : r.avgDuration with
  | none => rw [scanTeamRow, hd] at h; cases h
  | some a =>
    rw [scanTeamRow, hd] at h
    cases h
    exact ⟨rfl, rfl, rfl, rfl⟩

theorem scanTeamRows_ok : ∀ {rows : List TeamRow} {ms : List TeamMetrics},
    scanTeamRows rows = .ok ms → List.Forall₂ rowMatches rows ms
  | [], ms, h => by
    rw [scanTeamRows] at h
    cases h
    exact List.Forall₂.nil
  | r :: rs, ms, h => by
    rw [scanTeamRows] at h
    cases hr : scanTeamRow r with
    | error e => rw [hr] at h; cases h
    | ok tm =>
      rw [hr] at h
      cases hrs : scanTeamRows rs with
      | error e => rw [hrs] at h; cases h
      | ok tms =>
        rw [hrs] at h
        cases h
        exact List.Forall₂.cons (scanTeamRow_ok hr) (scanTeamRows_ok hrs)

theorem forall₂_rate_map : ∀ {rows : List TeamRow} {ms : List TeamMetrics},
    List.Forall₂ rowMatches rows ms →
    ms.map (fun tm => tm.successRate) = rows.map (fun r => r.successRate)
  | _, _, List.Forall₂.nil => rfl
  | _, _, List.Forall₂.cons h1 h2 => by
    simp only [List.map_cons, forall₂_rate_map h2, h1.2.2.2]

theorem forall₂_total_map : ∀ {rows : List TeamRow} {ms : List TeamMetrics},
    List.Forall₂ rowMatches rows ms →
    ms.map (fun tm => tm.totalDeployments) = rows.map (fun r => r.totalDeployments)
  | _, _, List.Forall₂.nil => rfl
  | _, _, List.Forall₂.cons h1 h2 => by
    simp only [List.map_cons, forall₂_total_map h2, h1.2.1]

theorem forall₂_mem_right : ∀ {rows : List TeamRow} {ms : List TeamMetrics},
    List.Forall₂ rowMatches rows ms → ∀ {tm}, tm ∈ ms → ∃ r ∈ rows, rowMatches r tm
  | _, _, List.Forall₂.nil, _, htm => absurd htm (List.not_mem_nil _)
  | _, _, List.Forall₂.cons h1 h2, tm, htm => by
    rcases List.mem_cons.1 htm with rfl | htm2
    · exact ⟨_, List.mem_cons_self _ _, h1⟩
    · obtain ⟨r, hr, hm⟩ := forall₂_mem_right h2 htm2
      exact ⟨r, List.mem_cons_of_mem _ hr, hm⟩

theorem mem_teamRowsOf {ds : List Deployment} {r : TeamRow}
    (hr : r ∈ teamRowsOf ds) :
    ∃ t ∈ distinctTeams ds, r = teamRowOf ds t := by
  obtain ⟨t, ht, rfl⟩ := List.mem_map.1 hr
  exact ⟨t, ht, rfl⟩

theorem teamDeployments_length_pos {ds : List Deployment} {t : String}
    (ht : t ∈ distinctTeams ds) : 0 < (teamDeployments ds t).length := by
  obtain ⟨d, hd, hdt⟩ := List.mem_map.1 (List.mem_dedup.1 ht)
  have : d ∈ teamDeployments ds t := by
    rw [teamDeployments, List.mem_filter]
    exact ⟨hd, by simp [hdt]⟩
  exact List.length_pos.2 (List.ne_nil_of_mem this)

theorem round2_bounds {q : ℚ} (h0 : 0 ≤ q) (h100 : q ≤ 100) :
    0 ≤ round2 q ∧ round2 q ≤ 100 := by
  rw [round2, duckRoundInt, if_pos (by positivity)]
  constructor
  · apply div_nonneg _ (by norm_num)
    have : (0 : ℤ) ≤ ⌊q * 100 + 1 / 2⌋ := Int.floor_nonneg.2 (by linarith)
    exact_mod_cast this
  · rw [div_le_iff₀ (by norm_num : (0 : ℚ) < 100)]
    have h1 : ⌊q * 100 + 1 / 2⌋ < 10001 := Int.floor_lt.2 (by push_cast; linarith)
    have h2 : ⌊q * 100 + 1 / 2⌋ ≤ 10000 := by omega
    calc ((⌊q * 100 + 1 / 2⌋ : ℤ) : ℚ) ≤ 10000 := by exact_mod_cast h2
      _ = 100 * 100 := by norm_num

theorem sum_teamRows_total (ds : List Deployment) :
    ((teamRowsOf ds).map (fun r => r.totalDeployments)).sum = ds.length := by
  have hcast : ∀ x ∈ (ds.map (fun d => d.team)).dedup,
      (teamRowOf ds x).totalDeployments = (ds.map (fun d => d.team)).count x := by
    intro x _
    rw [teamRowOf, List.count_eq_countP, List.countP_map,
      List.countP_eq_length_filter]
    rfl
  rw [teamRowsOf, List.map_map, distinctTeams]
  simp only [Function.comp_def]
  have hmc :
      (List.map (fun a => (teamRowOf ds a).totalDeployments)
        (List.map (fun d => d.team) ds).dedup) =
      (List.map (fun x => (List.map (fun d => d.team) ds).count x)
        (List.map (fun d => d.team) ds).dedup) :=
    List.map_congr_left hcast
  rw [hmc, List.sum_map_count_dedup_eq_length, List.length_map]

-- Claim theorems.

/-- C10: with an empty deployments table, `GetTeamMetrics` returns an empty
sequence and no error. -/
theorem getTeamMetrics_empty : GetTeamMetrics ([] : List Deployment) = .ok [] := rfl

/-- C4: the Aggregation Engine is idempotent — with unchanged raw data, a
second (successful) `aggregateMetrics` run leaves `daily_team_summary` and
`team_rankings` identical to the state after the first run. -/
theorem aggregateMetrics_idempotent (ds : List Deployment) (st : DerivedState) :
    (aggregateMetrics ds false false (aggregateMetrics ds false false st).2).2 =
      (aggregateMetrics ds false false st).2 := by
  simp [aggregateMetrics]

/-- C3 counterexample: a cycle whose second statement fails reports failure,
yet `daily_team_summary` has already been replaced by the new recompute — the
run is not atomic across the two derived tables. Starting from empty derived
tables and one raw deployment, the failed cycle leaves `daily_team_summary`
non-empty. -/
theorem aggregateMetrics_not_atomic :
    (aggregateMetrics [depOkA] false true ⟨[], []⟩).1 = some "aggregation query failed" ∧
    (aggregateMetrics [depOkA] false true ⟨[], []⟩).2.dailyTeamSummary =
      computeDailySummary [depOkA] ∧
    computeDailySummary [depOkA] ≠ [] := by
  refine ⟨?_, ?_, ?_⟩ <;> with_unfolding_all decide

/-- C3 amended: on failure `aggregateMetrics` reports an error and stops at
the first failing statement. If the first statement fails, both derived
tables keep their previous contents; if the second fails, `team_rankings`
keeps its previous contents but `daily_team_summary` already holds the full
new recompute. Each table is atomically replaced as a whole (its contents are
always either the previous snapshot or one complete recompute, never a
mixture), but the cycle is not atomic across the two tables. -/
theorem aggregateMetrics_failure_behavior (ds : List Deployment) (st : DerivedState) :
    (∀ f2 : Bool, aggregateMetrics ds true f2 st = (some "aggregation query failed", st)) ∧
    aggregateMetrics ds false true st =
      (some "aggregation query failed", ⟨computeDailySummary ds, st.teamRankings⟩) ∧
    aggregateMetrics ds false false st =
      (none, ⟨computeDailySummary ds, computeTeamRankings ds⟩) := by
  refine ⟨fun f2 => ?_, ?_, ?_⟩ <;> simp [aggregateMetrics]

/-- C2: the `GetTeamMetrics` SQL computes a team's average duration only over
its successful deployments (NULL when there is none) — but the Go scan of
that NULL into a `float64` makes the whole call return an error instead of
the team with a null average. Team `alpha` with one failed deployment: the
SQL row's average is NULL and `GetTeamMetrics` errors. With one successful
(duration 10) and one failed (duration 999) deployment, the average is 10,
ignoring the failed one. -/
theorem getTeamMetrics_null_avg_error :
    (teamRowOf [depFail] "alpha").avgDuration = none ∧
    (teamRowOf [depOkA, depFail999] "alpha").avgDuration = some 10 ∧
    GetTeamMetrics [depFail] =
      .error "scan failed: converting NULL to float64 is unsupported" := by
  refine ⟨?_, ?_, ?_⟩ <;> with_unfolding_all decide

/-- C1 counterexample: `team_rankings` uses `RANK()`, not `DENSE_RANK()`.
With `alpha` and `beta` at 100% success and `gamma` at 0%, the computed
success ranks are 1, 1, 3 — rank 2 is skipped — while the spec's dense
ranking would give 1, 1, 2. -/
theorem teamRankings_not_dense :
    (computeTeamRankings rankEx).map (fun r => r.successRank) = [1, 1, 3] ∧
    ¬ (2 ∈ (computeTeamRankings rankEx).map (fun r => r.successRank)) ∧
    (distinctTeams rankEx).map (specDenseSuccessRank rankEx) = [1, 1, 2] := by
  refine ⟨?_, ?_, ?_⟩ <;> with_unfolding_all decide

/-- C5 counterexample: with `days = 0` the window is `timestamp >=
CURRENT_DATE`, so a deployment on the current day is still returned: team
`alpha` deployed at minute 0 and the query runs at minute 720 of the same
day, yet the result is non-empty. -/
theorem getDailyMetrics_days_zero_nonempty :
    GetDailyMetrics [depOkA] 720 "" 0 = .ok [⟨0, "alpha", 1, 1, 10⟩] ∧
    GetDailyMetrics [depOkA] 720 "" 0 ≠ .ok [] := by
  refine ⟨?_, ?_⟩ <;> with_unfolding_all decide

/-- C5 amended: `GetDailyMetrics` never errors, and it returns the empty
sequence whenever no deployment lies on or after the window cutoff
`CURRENT_DATE - days` — in particular for any window that excludes all data.
(`days = 0` alone does not guarantee emptiness: deployments dated on the
current day still fall inside the window.) -/
theorem getDailyMetrics_empty_window (ds : List Deployment) (now : Int)
    (team : String) (days : Int)
    (h : ∀ d ∈ ds, d.timestamp < truncDay now - days * dayLen) :
    GetDailyMetrics ds now team days = .ok [] := by
  have hf : ds.filter (fun d =>
      (team == "" || d.team == team) &&
        decide (truncDay now - days * dayLen ≤ d.timestamp)) = [] := by
    rw [List.filter_eq_nil_iff]
    intro d hd
    simp only [Bool.and_eq_true, decide_eq_true_eq, not_and]
    intro _
    exact not_le.2 (h d hd)
  simp only [GetDailyMetrics, hf, List.map_nil, List.dedup_nil]
  rfl

/-- Witness for the amended C5: a deployment at minute 0, queried one day
later with a one-day window, yields the empty sequence without error. -/
theorem getDailyMetrics_empty_window_witness :
    GetDailyMetrics [depOkA] 2880 "" 1 = .ok [] :=
  getDailyMetrics_empty_window [depOkA] 2880 "" 1 (by with_unfolding_all decide)

/-- C6 counterexample: the boundary layer does not validate positivity. The
`days` strings `"0"` and `"-7"` parse successfully, are not replaced by the
default 30, and are handed to `GetDailyMetrics` unchanged, so the query runs
with a non-positive `days` argument. -/
theorem daysBoundary_passes_nonpositive :
    parseDays "0" = 0 ∧ parseDays "-7" = -7 ∧
    getDailyMetricsHandler [depOkA] 720 "" "0" = GetDailyMetrics [depOkA] 720 "" 0 := by
  refine ⟨?_, ?_, ?_⟩ <;> with_unfolding_all decide

/-- C6 amended: the boundary layer substitutes the default 30 only when the
`days` string fails integer parsing; any successfully parsed integer —
including zero and negative values — is passed to `GetDailyMetrics`
unchanged, with no positivity validation. -/
theorem daysBoundary_default_only_non_numeric (ds : List Deployment) (now : Int)
    (team s : String) :
    (s.toInt? = none →
      getDailyMetricsHandler ds now team s = GetDailyMetrics ds now team 30) ∧
    (∀ n : Int, s.toInt? = some n →
      getDailyMetricsHandler ds now team s = GetDailyMetrics ds now team n) := by
  constructor
  · intro h
    rw [getDailyMetricsHandler, parseDays, h]
    rfl
  · intro n h
    rw [getDailyMetricsHandler, parseDays, h]
    rfl

/-- Witness for the amended C6: `"abc"` falls back to 30, `"-7"` is passed
through. -/
theorem daysBoundary_default_only_non_numeric_witness :
    getDailyMetricsHandler [depOkA] 720 "" "abc" = GetDailyMetrics [depOkA] 720 "" 30 ∧
    getDailyMetricsHandler [depOkA] 720 "" "-7" = GetDailyMetrics [depOkA] 720 "" (-7) :=
  ⟨(daysBoundary_default_only_non_numeric [depOkA] 720 "" "abc").1
      (by with_unfolding_all decide),
    (daysBoundary_default_only_non_numeric [depOkA] 720 "" "-7").2 (-7)
      (by with_unfolding_all decide)⟩

/-- C8: when `GetTeamMetrics` succeeds on a non-empty deployments table, the
`total_deployments` fields of its result sum to the number of rows in the
table — each deployment is counted for exactly one team. -/
theorem getTeamMetrics_total_sum (ds : List Deployment) (ms : List TeamMetrics)
    (_hne : ds ≠ []) (h : GetTeamMetrics ds = .ok ms) :
    (ms.map (fun tm => tm.totalDeployments)).sum = ds.length := by
  have hf := scanTeamRows_ok h
  rw [forall₂_total_map hf]
  have hperm : List.Perm (sortedTeamRows ds) (teamRowsOf ds) :=
    List.perm_insertionSort teamOrder (teamRowsOf ds)
  rw [(hperm.map (fun r => r.totalDeployments)).sum_eq]
  exact sum_teamRows_total ds

/-- Witness for C8 on three deployments across two teams: 1 + 2 = 3. -/
theorem getTeamMetrics_total_sum_witness :
    (([tmAlpha, tmBeta] : List TeamMetrics).map (fun tm => tm.totalDeployments)).sum =
      ([depOkA, depOkB, depFailB] : List Deployment).length :=
  getTeamMetrics_total_sum [depOkA, depOkB, depFailB] [tmAlpha, tmBeta]
    (by with_unfolding_all decide) (by with_unfolding_all decide)

/-- C9: the sequence `GetTeamMetrics` returns is ordered by success rate
descending — every later element's rate is at most the earlier one's, in
particular for adjacent pairs. -/
theorem getTeamMetrics_sorted_desc (ds : List Deployment) (ms : List TeamMetrics)
    (h : GetTeamMetrics ds = .ok ms) (i : ℕ) (h1 : i < ms.length)
    (h2 : i + 1 < ms.length) :
    (ms.get ⟨i + 1, h2⟩).successRate ≤ (ms.get ⟨i, h1⟩).successRate := by
  have hf := scanTeamRows_ok h
  have hs : List.Sorted teamOrder (sortedTeamRows ds) :=
    List.sorted_insertionSort teamOrder (teamRowsOf ds)
  have hp : List.Pairwise (fun a b : ℚ => b ≤ a)
      ((sortedTeamRows ds).map (fun r => r.successRate)) :=
    List.pairwise_map.2 (hs.imp fun hab => hab)
  rw [← forall₂_rate_map hf] at hp
  have hp2 : List.Pairwise
      (fun a b : TeamMetrics => b.successRate ≤ a.successRate) ms :=
    List.pairwise_map.1 hp
  exact List.pairwise_iff_get.1 hp2 ⟨i, h1⟩ ⟨i + 1, h2⟩ (Nat.lt_succ_self i)

/-- Witness for C9: on the two-team data, `beta` (50%) follows `alpha`
(100%). -/
theorem getTeamMetrics_sorted_desc_witness :
    (([tmAlpha, tmBeta] : List TeamMetrics).get
        ⟨1, Nat.lt_of_sub_eq_succ rfl⟩).successRate ≤
      (([tmAlpha, tmBeta] : List TeamMetrics).get
        ⟨0, Nat.lt_of_sub_eq_succ rfl⟩).successRate :=
  getTeamMetrics_sorted_desc [depOkA, depOkB, depFailB] [tmAlpha, tmBeta]
    (by with_unfolding_all decide) 0 (Nat.lt_of_sub_eq_succ rfl)
    (Nat.lt_of_sub_eq_succ rfl)

/-- C7: every team `GetTeamMetrics` returns has a strictly positive grouped
deployment count (so the rate's division is never by zero), a success rate
between 0 and 100, and `success_rate = round(100 * successful / total, 2)`. -/
theorem getTeamMetrics_rate_bounds (ds : List Deployment) (ms : List TeamMetrics)
    (h : GetTeamMetrics ds = .ok ms) :
    ∀ tm ∈ ms, 0 < tm.totalDeployments ∧ 0 ≤ tm.successRate ∧
      tm.successRate ≤ 100 ∧
      tm.successRate =
        round2 ((100 * (tm.successfulDeployments : ℚ)) / (tm.totalDeployments : ℚ)) := by
  intro tm htm
  obtain ⟨r, hr, hm⟩ := forall₂_mem_right (scanTeamRows_ok h) htm
  have hr2 : r ∈ teamRowsOf ds := (List.mem_insertionSort teamOrder).1 hr
  obtain ⟨t, ht, rfl⟩ := mem_teamRowsOf hr2
  obtain ⟨hteam, htot, hsucc, hrate⟩ := hm
  have hpos : 0 < (teamDeployments ds t).length := teamDeployments_length_pos ht
  have hle : ((teamDeployments ds t).filter (fun d => d.status == "success")).length ≤
      (teamDeployments ds t).length := List.length_filter_le _ _
  have htotval : tm.totalDeployments = (teamDeployments ds t).length := htot
  have hsuccval : tm.successfulDeployments =
      ((teamDeployments ds t).filter (fun d => d.status == "success")).length := hsucc
  have hrateval : tm.successRate = round2
      ((100 * (((teamDeployments ds t).filter
        (fun d => d.status == "success")).length : ℚ)) /
        ((teamDeployments ds t).length : ℚ)) := hrate
  have hq0 : (0 : ℚ) ≤ (100 * (((teamDeployments ds t).filter
      (fun d => d.status == "success")).length : ℚ)) /
      ((teamDeployments ds t).length : ℚ) := by positivity
  have hq100 : (100 * (((teamDeployments ds t).filter
      (fun d => d.status == "success")).length : ℚ)) /
      ((teamDeployments ds t).length : ℚ) ≤ 100 := by
    rw [div_le_iff₀ (by exact_mod_cast hpos)]
    have hc : (((teamDeployments ds t).filter
        (fun d => d.status == "success")).length : ℚ) ≤
        ((teamDeployments ds t).length : ℚ) := by exact_mod_cast hle
    nlinarith
  obtain ⟨hb0, hb100⟩ := round2_bounds hq0 hq100
  refine ⟨?_, ?_, ?_, ?_⟩
  · rw [htotval]; exact hpos
  · rw [hrateval]; exact hb0
  · rw [hrateval]; exact hb100
  · rw [hrateval, htotval, hsuccval]

/-- Witness for C7 at the two-team data, checked on the `beta` row. -/
theorem getTeamMetrics_rate_bounds_witness :
    0 < tmBeta.totalDeployments ∧ 0 ≤ tmBeta.successRate ∧
      tmBeta.successRate ≤ 100 ∧
      tmBeta.successRate =
        round2 ((100 * (tmBeta.successfulDeployments : ℚ)) / (tmBeta.totalDeployments : ℚ)) :=
  getTeamMetrics_rate_bounds [depOkA, depOkB, depFailB] [tmAlpha, tmBeta]
    (by with_unfolding_all decide) tmBeta (by simp)

/-- C1 amended: `team_rankings` assigns standard competition ranks (SQL
`RANK()`), by success rate descending and by raw deployment count descending:
tied values share a rank and a higher value always receives a strictly
smaller rank, but the rank following a group of ties skips ahead by the tie
count (gaps appear; it is not a dense rank). -/
theorem teamRankings_competition_rank (ds : List Deployment) :
    ∀ r ∈ computeTeamRankings ds, ∀ s ∈ computeTeamRankings ds,
      (rawSuccessRate ds r.team = rawSuccessRate ds s.team →
        r.successRank = s.successRank) ∧
      (rawSuccessRate ds s.team < rawSuccessRate ds r.team →
        r.successRank < s.successRank) ∧
      (deployCount ds r.team = deployCount ds s.team →
        r.velocityRank = s.velocityRank) ∧
      (deployCount ds s.team < deployCount ds r.team →
        r.velocityRank < s.velocityRank) := by
  intro r hr s hs
  rw [computeTeamRankings] at hr hs
  obtain ⟨u, hu, hrEq⟩ := List.mem_map.1 hr
  obtain ⟨v, hv, hsEq⟩ := List.mem_map.1 hs
  subst hrEq
  subst hsEq
  dsimp only
  refine ⟨?_, ?_, ?_, ?_⟩
  · intro heq
    rw [heq]
  · intro hlt
    apply Nat.add_lt_add_left
    apply countP_lt_of_mem (x := u) ?_ hu (decide_eq_true hlt)
      (decide_eq_false (lt_irrefl _))
    intro a ha
    exact decide_eq_true (lt_trans hlt (of_decide_eq_true ha))
  · intro heq
    rw [heq]
  · intro hlt
    apply Nat.add_lt_add_left
    apply countP_lt_of_mem (x := u) ?_ hu (decide_eq_true hlt)
      (decide_eq_false (lt_irrefl _))
    intro a ha
    exact decide_eq_true (lt_trans hlt (of_decide_eq_true ha))

/-- Witness for the amended C1 on `rankEx`: `gamma` (0% success) ranks
strictly below `alpha` (100% success), with rank 3 against rank 1. -/
theorem teamRankings_competition_rank_witness :
    (RankRow.mk "alpha" 1 1).successRank < (RankRow.mk "gamma" 3 1).successRank :=
  (teamRankings_competition_rank rankEx (RankRow.mk "alpha" 1 1)
      (by with_unfolding_all decide) (RankRow.mk "gamma" 3 1)
      (by with_unfolding_all decide)).2.1 (by with_unfolding_all decide)
